import Mathlib

/-
  Verification development for the go-xlogger repository.

  Shallow embedding of the trace-context store, the Field data type, the
  field-merge pipeline (withTraceFields), the zap field conversion
  (convertFieldsToZap), Sync error classification, the ForInfra component
  cache, and the NewZapLogger configuration path.

  Go machine values are modelled as follows: a Go interface value is an
  Option GoVal where none models the nil interface; strings are Lean
  Strings; int and int64 are Int (no claim involves overflow); float64
  payloads are carried as their 64-bit patterns (Nat) since no claim
  computes with them; time.Time and time.Duration are carried as Nat / Int
  tick counts.
-/

namespace XLogger

/-- A Go runtime value stored in a Field's interface-typed slot.
Each constructor is one of the dynamic types distinguished by the
type switch in convertFieldsToZap (logger_zap.go); vother covers every
other runtime type (maps, structs, ...). -/
inductive GoVal where
  | vstr (s : String)
  | vint (n : Int)
  | vint64 (n : Int)
  | vfloat64 (bits : Nat)
  | vbool (b : Bool)
  | vtime (t : Nat)
  | vdur (d : Int)
  | verr (msg : String)
  | vother (tag : String)
deriving DecidableEq

/-- FieldType from the source: the discriminator enum, in iota order.
The source enum has exactly these eight constants; there is no
separate 64-bit integer discriminator. -/
inductive FieldType where
  | StringType
  | IntType
  | Float64Type
  | BoolType
  | ErrorType
  | DurationType
  | TimeType
  | AnyType
deriving DecidableEq

/-- Field: key, interface-typed value (none = nil interface), and typ tag. -/
structure Field where
  key : String
  value : Option GoVal
  typ : FieldType
deriving DecidableEq

/-- Alias used in the Field constructor signatures below: inside the Field
namespace the bare builtin type names would be shadowed by the
constructors that share them. -/
abbrev GoString := String

/-- Alias for the builtin Int (see GoString). -/
abbrev GoInt := Int

/-- Alias for the builtin Bool (see GoString). -/
abbrev GoBool := Bool

/-- String creates a string field. -/
def Field.String (key value : GoString) : Field :=
  { key := key, value := some (GoVal.vstr value), typ := FieldType.StringType }

/-- Int creates an integer field. -/
def Field.Int (key : GoString) (value : GoInt) : Field :=
  { key := key, value := some (GoVal.vint value), typ := FieldType.IntType }

/-- Int64 creates an int64 field; the source tags it with IntType. -/
def Field.Int64 (key : GoString) (value : GoInt) : Field :=
  { key := key, value := some (GoVal.vint64 value), typ := FieldType.IntType }

/-- Float64 creates a float64 field (payload carried as its bit pattern). -/
def Field.Float64 (key : GoString) (value : Nat) : Field :=
  { key := key, value := some (GoVal.vfloat64 value), typ := FieldType.Float64Type }

/-- Bool creates a boolean field. -/
def Field.Bool (key : GoString) (value : GoBool) : Field :=
  { key := key, value := some (GoVal.vbool value), typ := FieldType.BoolType }

/-- NamedError creates an error field with a specific name; a nil error
(err = none) is stored as the nil interface value. -/
def Field.NamedError (key : GoString) (err : Option GoString) : Field :=
  { key := key, value := err.map GoVal.verr, typ := FieldType.ErrorType }

/-- Error creates an error field (delegates to NamedError with key "error"). -/
def Field.Error (err : Option GoString) : Field :=
  Field.NamedError "error" err

/-- Duration creates a time.Duration field. -/
def Field.Duration (key : GoString) (value : GoInt) : Field :=
  { key := key, value := some (GoVal.vdur value), typ := FieldType.DurationType }

/-- Time creates a time.Time field. -/
def Field.Time (key : GoString) (value : Nat) : Field :=
  { key := key, value := some (GoVal.vtime value), typ := FieldType.TimeType }

/-- Any creates a field for any value, including the nil interface. -/
def Field.Any (key : GoString) (value : Option GoVal) : Field :=
  { key := key, value := value, typ := FieldType.AnyType }

/-! ## Trace context store

The store is the gls goroutine-local context manager (an external
dependency of the repository). Its scoped-binding semantics — SetValues
binds the given values for exactly the dynamic extent of the wrapped call,
restoring the previous bindings on every exit path including panic — is
made explicit here by threading the per-execution-unit scope stack. Every
SetValues call of this repository binds both trace keys together, so a
scope is one (requestID, correlationID) pair; the innermost scope is the
head of the stack. -/

/-- The per-execution-unit stack of trace scopes, innermost first.
The empty stack models an execution unit outside any active scope. -/
abbrev TraceState := List (String × String)

/-- Entering a scope: SetValues binds both identifiers for the dynamic
extent of the wrapped call. -/
def pushScope (requestID correlationID : String) (st : TraceState) : TraceState :=
  (requestID, correlationID) :: st

/-- TraceRequestID / getTraceValue on the request-id key: the nearest
enclosing bound value, or the empty string when none is bound. -/
def TraceRequestID (st : TraceState) : String :=
  match st with
  | [] => ""
  | (r, _) :: _ => r

/-- TraceCorrelationID / getTraceValue on the correlation-id key. -/
def TraceCorrelationID (st : TraceState) : String :=
  match st with
  | [] => ""
  | (_, c) :: _ => c

/-! ## Field merge pipeline (withTraceFields, logger_zap.go 249-281) -/

def requestIDFieldKey : String := "request_id"

def correlationIDFieldKey : String := "correlation_id"

/-- The single scan of withTraceFields: one pass over the fields setting
hasRequestID / hasCorrelationID exactly as the Go switch does. -/
def scanTraceKeys (acc : Bool × Bool) : List Field → Bool × Bool
  | [] => acc
  | field :: rest =>
      if field.key == requestIDFieldKey then scanTraceKeys (true, acc.2) rest
      else if field.key == correlationIDFieldKey then scanTraceKeys (acc.1, true) rest
      else scanTraceKeys acc rest

def hasTraceKeysScan (fields : List Field) : Bool × Bool :=
  scanTraceKeys (false, false) fields

/-- withTraceFields: append the ambient trace identifiers unless empty or
already present. The trace-store state is the explicit st parameter
(the Go code reads it from goroutine-local storage). -/
def withTraceFields (st : TraceState) (fields : List Field) : List Field :=
  let requestID := TraceRequestID st
  let correlationID := TraceCorrelationID st
  let needRequestID := requestID != ""
  let needCorrelationID := correlationID != ""
  if !needRequestID && !needCorrelationID then fields
  else
    let scan := hasTraceKeysScan fields
    let hasRequestID := scan.1
    let hasCorrelationID := scan.2
    let fields1 :=
      if needRequestID && !hasRequestID then
        fields ++ [Field.String requestIDFieldKey requestID]
      else fields
    if needCorrelationID && !hasCorrelationID then
      fields1 ++ [Field.String correlationIDFieldKey correlationID]
    else fields1

lemma scanTraceKeys_eq (fields : List Field) (a b : Bool) :
    scanTraceKeys (a, b) fields
    = (a || fields.any (fun f => f.key == requestIDFieldKey),
       b || fields.any (fun f => f.key == correlationIDFieldKey)) := by
  have hkeys : (requestIDFieldKey == correlationIDFieldKey) = false := by decide
  have hkeys' : (correlationIDFieldKey == requestIDFieldKey) = false := by decide
  have hkeysne : ¬correlationIDFieldKey = requestIDFieldKey := by decide
  induction fields generalizing a b with
  | nil => simp [scanTraceKeys]
  | cons f fs ih =>
    by_cases hr : f.key = requestIDFieldKey
    · have hc : ¬f.key = correlationIDFieldKey := by
        rw [hr]; decide
      simp [scanTraceKeys, hr, hc, ih, hkeys, Bool.or_assoc]
    · by_cases hc : f.key = correlationIDFieldKey
      · have hrb : (f.key == requestIDFieldKey) = false := by
          simp [hr]
        simp [scanTraceKeys, hr, hc, ih, hkeys', hkeysne, hrb, Bool.or_assoc]
      · have hrb : (f.key == requestIDFieldKey) = false := by
          simp [hr]
        have hcb : (f.key == correlationIDFieldKey) = false := by
          simp [hc]
        simp [scanTraceKeys, hr, hc, ih, hrb, hcb]

lemma hasTraceKeysScan_eq (fields : List Field) :
    hasTraceKeysScan fields
      = (fields.any (fun f => f.key == requestIDFieldKey),
         fields.any (fun f => f.key == correlationIDFieldKey)) := by
  unfold hasTraceKeysScan
  rw [scanTraceKeys_eq]
  simp

lemma withTraceFields_eq_append (st : TraceState) (fields : List Field) :
    withTraceFields st fields =
      fields
      ++ (if TraceRequestID st ≠ "" ∧ ∀ f ∈ fields, f.key ≠ requestIDFieldKey
          then [Field.String requestIDFieldKey (TraceRequestID st)] else [])
      ++ (if TraceCorrelationID st ≠ "" ∧ ∀ f ∈ fields, f.key ≠ correlationIDFieldKey
          then [Field.String correlationIDFieldKey (TraceCorrelationID st)] else []) := by
  unfold withTraceFields
  rw [hasTraceKeysScan_eq]
  by_cases hr : TraceRequestID st = "" <;>
    by_cases hc : TraceCorrelationID st = "" <;>
      by_cases hhr : fields.any (fun f => f.key == requestIDFieldKey) <;>
        by_cases hhc : fields.any (fun f => f.key == correlationIDFieldKey) <;>
          simp_all [List.any_eq_true, List.any_eq_false, List.append_assoc] <;>
            split_ifs <;> simp_all

/-- C1: the merged sequence is the original fields, in order, followed by
the synthetic request-id field exactly when the ambient request id is
non-empty and absent from the input, then the synthetic correlation-id
field under the analogous condition. Caller-supplied reserved keys are
preserved and never duplicated, and the length grows only for genuinely
new keys. -/
theorem withTraceFields_merge (st : TraceState) (fields : List Field) :
    withTraceFields st fields =
      fields
      ++ (if TraceRequestID st ≠ "" ∧ ∀ f ∈ fields, f.key ≠ requestIDFieldKey
          then [Field.String requestIDFieldKey (TraceRequestID st)] else [])
      ++ (if TraceCorrelationID st ≠ "" ∧ ∀ f ∈ fields, f.key ≠ correlationIDFieldKey
          then [Field.String correlationIDFieldKey (TraceCorrelationID st)] else []) :=
  withTraceFields_eq_append st fields

/-- C2: fast path — when both ambient identifiers are empty the merge
returns the input sequence itself, unmodified. -/
theorem withTraceFields_fastpath (st : TraceState) (fields : List Field)
    (h1 : TraceRequestID st = "") (h2 : TraceCorrelationID st = "") :
    withTraceFields st fields = fields := by
  unfold withTraceFields
  simp [h1, h2]

/-- Witness for C2 at a concrete state and field list. -/
theorem withTraceFields_fastpath_witness :
    TraceRequestID [] = "" ∧ TraceCorrelationID [] = "" ∧
      withTraceFields [] [Field.Int "n" 7] = [Field.Int "n" 7] :=
  ⟨rfl, rfl, withTraceFields_fastpath [] [Field.Int "n" 7] rfl rfl⟩

/-! ## Scoped execution (RunWithTrace / RunWithTraceVoid)

A Go call either returns normally or panics; TOutcome carries the panic
payload so that "propagated unmodified" is expressible. A Go closure over
the trace store is modelled as a function of the ambient TraceState. -/

/-- Outcome of running a Go function: normal return or a propagating
panic carrying its payload. -/
inductive TOutcome (α : Type) where
  | ok (val : α)
  | panicked (msg : String)
deriving DecidableEq

/-- A Go error result: none models the nil error. -/
abbrev GoError := Option String

/-- The gls SetValues call of the trace store (external dependency):
binds both identifiers for exactly the dynamic extent of the wrapped
call; the caller's state is untouched afterwards on every exit path. -/
def SetValues {α : Type} (st : TraceState) (requestID correlationID : String)
    (body : TraceState → TOutcome α) : TOutcome α :=
  body (pushScope requestID correlationID st)

/-- RunWithTrace: nil fn is a no-op returning the nil error; otherwise fn
runs under the bound scope and its outcome is returned as is. -/
def RunWithTrace (st : TraceState) (requestID correlationID : String)
    (fn : Option (TraceState → TOutcome GoError)) : TOutcome GoError :=
  match fn with
  | none => TOutcome.ok none
  | some f => SetValues st requestID correlationID f

/-- RunWithTraceVoid: same, without an error result. -/
def RunWithTraceVoid (st : TraceState) (requestID correlationID : String)
    (fn : Option (TraceState → TOutcome Unit)) : TOutcome Unit :=
  match fn with
  | none => TOutcome.ok ()
  | some f => SetValues st requestID correlationID f

/-- C3: RunWithTrace returns exactly the outcome of fn — errors and
panics propagated unchanged, never translated — and a nil fn is a no-op
returning the nil error (RunWithTraceVoid likewise does nothing),
without binding any trace context. -/
theorem RunWithTrace_propagates (st : TraceState) (requestID correlationID : String) :
    (∀ f : TraceState → TOutcome GoError,
        RunWithTrace st requestID correlationID (some f)
          = f (pushScope requestID correlationID st))
    ∧ RunWithTrace st requestID correlationID none = TOutcome.ok none
    ∧ RunWithTraceVoid st requestID correlationID none = TOutcome.ok () :=
  ⟨fun _ => rfl, rfl, rfl⟩

/-! ## Dynamic extent of trace scopes

To state shadowing and restoration over whole executions, programs that
interleave scoped calls, trace reads and panics are given a small
syntax and an interpreter that threads the per-execution-unit scope
stack; runTrace performs exactly what RunWithTrace/SetValues do: run the
body on the pushed state, and continue (or unwind) on the caller's
state. -/

/-- Program syntax: read both identifiers, panic, run a scoped call,
or run a call protected by a caller-side recover. Each statement carries
its continuation; skip terminates. -/
inductive Stmt where
  | skip
  | getIDs (next : Stmt)
  | panicS (msg : String) (next : Stmt)
  | runTrace (requestID correlationID : String) (body : Stmt) (next : Stmt)
  | recoverCall (body : Stmt) (next : Stmt)
deriving DecidableEq

/-- Interpreter: returns the list of (requestID, correlationID) pairs
observed by getIDs in execution order, and none for normal
termination or some msg for a propagating panic. -/
def exec (st : TraceState) : Stmt → List (String × String) × Option String
  | Stmt.skip => ([], none)
  | Stmt.getIDs next =>
      let k := exec st next
      ((TraceRequestID st, TraceCorrelationID st) :: k.1, k.2)
  | Stmt.panicS msg _ => ([], some msg)
  | Stmt.runTrace requestID correlationID body next =>
      let inner := exec (pushScope requestID correlationID st) body
      match inner.2 with
      | some msg => (inner.1, some msg)
      | none =>
          let k := exec st next
          (inner.1 ++ k.1, k.2)
  | Stmt.recoverCall body next =>
      let inner := exec st body
      let k := exec st next
      (inner.1 ++ k.1, k.2)

/-- Sequencing of programs: replaces the final skip of the first program
with the second. -/
def seqS : Stmt → Stmt → Stmt
  | Stmt.skip, t => t
  | Stmt.getIDs n, t => Stmt.getIDs (seqS n t)
  | Stmt.panicS msg n, t => Stmt.panicS msg (seqS n t)
  | Stmt.runTrace r c b n, t => Stmt.runTrace r c b (seqS n t)
  | Stmt.recoverCall b n, t => Stmt.recoverCall b (seqS n t)

lemma TraceRequestID_push (r c : String) (st : TraceState) :
    TraceRequestID (pushScope r c st) = r := rfl

lemma TraceCorrelationID_push (r c : String) (st : TraceState) :
    TraceCorrelationID (pushScope r c st) = c := rfl

lemma exec_seqS (st : TraceState) (s t : Stmt) :
    exec st (seqS s t)
      = ((exec st s).1 ++ (if (exec st s).2 = none then (exec st t).1 else []),
         if (exec st s).2 = none then (exec st t).2 else (exec st s).2) := by
  induction s generalizing st with
  | skip => simp [seqS, exec]
  | getIDs n ih => simp [seqS, exec, ih]
  | panicS msg n ih => simp [seqS, exec]
  | runTrace r c b n ihb ihn =>
    cases h : (exec (pushScope r c st) b).2 with
    | some msg => simp [seqS, exec, h]
    | none => simp [seqS, exec, h, ihn]
  | recoverCall b n ihb ihn => simp [seqS, exec, ihn, List.append_assoc]

/-- C4: under a nested scope the accessors yield the inner pair for the
whole inner dynamic extent (every top-level read inside the body observes
(requestID, correlationID)); when the scoped call returns normally,
the read placed immediately after it observes the enclosing state's pair
again, with the continuation unaffected; and on the empty scope stack both
accessors return the empty string. -/
theorem nested_scope_shadow_restore (st : TraceState) (requestID correlationID : String)
    (body rest : Stmt)
    (h : (exec (pushScope requestID correlationID st) body).2 = none) :
    (∀ pre post, body = seqS pre (Stmt.getIDs post) →
        (exec (pushScope requestID correlationID st) pre).2 = none →
        (exec (pushScope requestID correlationID st) body).1
          = (exec (pushScope requestID correlationID st) pre).1
            ++ (requestID, correlationID)
              :: (exec (pushScope requestID correlationID st) post).1)
    ∧ exec st (Stmt.runTrace requestID correlationID body (Stmt.getIDs rest))
        = ((exec (pushScope requestID correlationID st) body).1
            ++ (TraceRequestID st, TraceCorrelationID st) :: (exec st rest).1,
           (exec st rest).2)
    ∧ TraceRequestID ([] : TraceState) = "" ∧ TraceCorrelationID ([] : TraceState) = "" := by
  refine ⟨?_, ?_, rfl, rfl⟩
  · intro pre post hbody hpre
    subst hbody
    rw [exec_seqS]
    simp [hpre, exec, TraceRequestID_push, TraceCorrelationID_push]
  · simp [exec, h]

/-- Witness for C4: outer scope ("A","a"), inner scope ("B","b"); inside
the inner call the pair is ("B","b"), right after it the pair is back to
("A","a"). -/
theorem nested_scope_shadow_restore_witness :
    (exec (pushScope "B" "b" [("A", "a")]) (Stmt.getIDs Stmt.skip)).2 = none
    ∧ exec [("A", "a")]
        (Stmt.runTrace "B" "b" (Stmt.getIDs Stmt.skip) (Stmt.getIDs Stmt.skip))
      = ([("B", "b"), ("A", "a")], none) := by
  have h : (exec (pushScope "B" "b" [("A", "a")]) (Stmt.getIDs Stmt.skip)).2 = none := rfl
  refine ⟨h, ?_⟩
  have h2 := (nested_scope_shadow_restore [("A", "a")] "B" "b"
    (Stmt.getIDs Stmt.skip) Stmt.skip h).2.1
  rw [h2]
  rfl

/-- C5: when the body of a scoped call panics, the panic propagates out
of the scoped call with its payload unmodified (nothing after the call in
the unprotected continuation runs), and once the caller recovers it, the
very next read observes the pre-call state's pair — the scope bound for
the body is gone on the unwind path too. -/
theorem panic_propagates_and_restores (st : TraceState) (requestID correlationID : String)
    (body rest : Stmt) (msg : String)
    (h : (exec (pushScope requestID correlationID st) body).2 = some msg) :
    exec st (Stmt.runTrace requestID correlationID body rest)
      = ((exec (pushScope requestID correlationID st) body).1, some msg)
    ∧ exec st (Stmt.recoverCall
          (Stmt.runTrace requestID correlationID body Stmt.skip) (Stmt.getIDs rest))
      = ((exec (pushScope requestID correlationID st) body).1
          ++ (TraceRequestID st, TraceCorrelationID st) :: (exec st rest).1,
         (exec st rest).2) := by
  constructor
  · simp [exec, h]
  · simp [exec, h]

/-- Witness for C5: a body that panics with "boom" under scope ("B","b")
on top of ("A","a"): the panic escapes the scoped call unmodified, and
after a caller-side recover the observed pair is ("A","a") again. -/
theorem panic_propagates_and_restores_witness :
    (exec (pushScope "B" "b" [("A", "a")]) (Stmt.panicS "boom" Stmt.skip)).2 = some "boom"
    ∧ exec [("A", "a")]
        (Stmt.runTrace "B" "b" (Stmt.panicS "boom" Stmt.skip) Stmt.skip)
      = ([], some "boom")
    ∧ exec [("A", "a")]
        (Stmt.recoverCall (Stmt.runTrace "B" "b" (Stmt.panicS "boom" Stmt.skip) Stmt.skip)
          (Stmt.getIDs Stmt.skip))
      = ([("A", "a")], none) := by
  have h : (exec (pushScope "B" "b" [("A", "a")]) (Stmt.panicS "boom" Stmt.skip)).2
      = some "boom" := rfl
  have h2 := panic_propagates_and_restores [("A", "a")] "B" "b"
    (Stmt.panicS "boom" Stmt.skip) Stmt.skip "boom" h
  exact ⟨h, h2.1.trans (by rfl), h2.2.trans (by rfl)⟩

/-! ## Field discriminators (C6) -/

/-- Counterexample for C6 as stated: the Int64 constructor does not carry
a distinct 64-bit discriminator — it is tagged IntType, the very tag the
Int constructor produces (the FieldType enum has no 64-bit variant). -/
theorem Int64_shares_IntType :
    (Field.Int64 "id" 123456789).typ = FieldType.IntType
    ∧ (Field.Int64 "id" 123456789).typ = (Field.Int "count" 42).typ :=
  ⟨rfl, rfl⟩

/-- C6 amended: every public constructor tags its Field with the
discriminator of its semantic type, except that Int64 shares IntType with
Int because the discriminator set has no distinct 64-bit variant; Error
and NamedError both yield ErrorType; a constructed Field is a plain
immutable value. -/
theorem field_constructor_discriminators (k s : String) (n : Int) (bits : Nat)
    (b : Bool) (e : Option String) (d : Int) (t : Nat) (v : Option GoVal) :
    (Field.String k s).typ = FieldType.StringType
    ∧ (Field.Int k n).typ = FieldType.IntType
    ∧ (Field.Int64 k n).typ = FieldType.IntType
    ∧ (Field.Float64 k bits).typ = FieldType.Float64Type
    ∧ (Field.Bool k b).typ = FieldType.BoolType
    ∧ (Field.Error e).typ = FieldType.ErrorType
    ∧ (Field.NamedError k e).typ = FieldType.ErrorType
    ∧ (Field.Duration k d).typ = FieldType.DurationType
    ∧ (Field.Time k t).typ = FieldType.TimeType
    ∧ (Field.Any k v).typ = FieldType.AnyType :=
  ⟨rfl, rfl, rfl, rfl, rfl, rfl, rfl, rfl, rfl, rfl⟩

/-! ## zap field conversion (convertFieldsToZap, logger_zap.go 181-247) -/

/-- The zap.Field values produced by the conversion, one constructor per
zap constructor the source calls. -/
inductive ZapField where
  | zstring (key s : String)
  | zint (key : String) (n : Int)
  | zint64 (key : String) (n : Int)
  | zfloat64 (key : String) (bits : Nat)
  | zbool (key : String) (b : Bool)
  | ztime (key : String) (t : Nat)
  | zduration (key : String) (d : Int)
  | znamedError (key msg : String)
  | zany (key : String) (v : Option GoVal)
deriving DecidableEq

/-- One arm of the type switch of convertFieldsToZap: dispatch on the
dynamic type of the stored value, in source order (string, int, int64,
float64, bool, time.Time, time.Duration, error, default). A nil interface
value matches no case and falls through to zap.Any. -/
def convertField (field : Field) : ZapField :=
  match field.value with
  | some (GoVal.vstr s) => ZapField.zstring field.key s
  | some (GoVal.vint n) => ZapField.zint field.key n
  | some (GoVal.vint64 n) => ZapField.zint64 field.key n
  | some (GoVal.vfloat64 bits) => ZapField.zfloat64 field.key bits
  | some (GoVal.vbool b) => ZapField.zbool field.key b
  | some (GoVal.vtime t) => ZapField.ztime field.key t
  | some (GoVal.vdur d) => ZapField.zduration field.key d
  | some (GoVal.verr msg) => ZapField.znamedError field.key msg
  | some (GoVal.vother tag) => ZapField.zany field.key (some (GoVal.vother tag))
  | none => ZapField.zany field.key none

/-- convertFieldsToZap: merge the trace fields, then convert — nil for an
empty list, the single-field fast path for one field, the loop otherwise;
both conversion paths apply the same per-field switch. -/
def convertFieldsToZap (st : TraceState) (fields0 : List Field) : List ZapField :=
  let fields := withTraceFields st fields0
  match fields with
  | [] => []
  | [field] => [convertField field]
  | _ => fields.map convertField

lemma convertFieldsToZap_eq_map (st : TraceState) (fields0 : List Field) :
    convertFieldsToZap st fields0 = (withTraceFields st fields0).map convertField := by
  unfold convertFieldsToZap
  cases h : withTraceFields st fields0 with
  | nil => rfl
  | cons f rest => cases rest <;> rfl

/-- C7: an error Field built from a nil error has nil Value and the
ErrorType discriminator; the conversion's error branch is bypassed for
the nil payload (it converts through the Any fallback) and the whole
merge-and-convert pipeline is total on any field list containing it,
emitting the converted field. -/
theorem nilError_safe (st : TraceState) (k : String) (fs : List Field)
    (h : Field.NamedError k none ∈ fs) :
    (Field.NamedError k none).value = none
    ∧ (Field.NamedError k none).typ = FieldType.ErrorType
    ∧ convertField (Field.NamedError k none) = ZapField.zany k none
    ∧ ZapField.zany k none ∈ convertFieldsToZap st fs := by
  refine ⟨rfl, rfl, rfl, ?_⟩
  rw [convertFieldsToZap_eq_map]
  have hmem : Field.NamedError k none ∈ withTraceFields st fs := by
    rw [withTraceFields_eq_append]
    exact List.mem_append_left _ (List.mem_append_left _ h)
  exact List.mem_map.mpr ⟨_, hmem, rfl⟩

/-- Witness for C7 at a concrete nil-error field under an active scope. -/
theorem nilError_safe_witness :
    Field.NamedError "error" none ∈ [Field.NamedError "error" none]
    ∧ ZapField.zany "error" none
        ∈ convertFieldsToZap [("r1", "c1")] [Field.NamedError "error" none] :=
  ⟨List.mem_singleton.mpr rfl,
   (nilError_safe [("r1", "c1")] "error" [Field.NamedError "error" none]
      (List.mem_singleton.mpr rfl)).2.2.2⟩

/-! ## Sync error classification (logger_zap.go 377-414) -/

/-- strings.Contains: sub occurs as a contiguous substring of s. -/
def goContains (s sub : String) : Bool :=
  decide (sub.toList <:+: s.toList)

/-- The fixed allow-list of ignorable sync error texts, in source order. -/
def ignorableErrors : List String :=
  ["sync /dev/stdout: inappropriate ioctl for device",
   "sync /dev/stderr: inappropriate ioctl for device",
   "sync /dev/stdout: invalid argument",
   "sync /dev/stderr: invalid argument",
   "sync stdout: inappropriate ioctl for device",
   "sync stderr: inappropriate ioctl for device"]

/-- isIgnorableSyncError: nil is not ignorable; otherwise the error text
is matched against the allow-list by substring containment. -/
def isIgnorableSyncError (err : Option String) : Bool :=
  match err with
  | none => false
  | some errStr => ignorableErrors.any (fun ignorable => goContains errStr ignorable)

/-- ZapLogger.Sync given the backend's sync result: ignorable errors are
swallowed, anything else is returned unchanged. -/
def ZapSync (backendErr : Option String) : Option String :=
  match backendErr with
  | none => none
  | some e => if isIgnorableSyncError (some e) then none else some e

/-- C8: Sync returns nil on a nil backend result; on a backend error it
returns nil exactly when the error text contains one of the six fixed
allow-listed strings, and otherwise returns the backend error unchanged. -/
lemma isIgnorable_iff (e : String) :
    isIgnorableSyncError (some e) = true
      ↔ ∃ ig ∈ ignorableErrors, ig.toList <:+: e.toList := by
  unfold isIgnorableSyncError goContains
  rw [List.any_eq_true]
  constructor
  · rintro ⟨ig, hig, hdec⟩
    exact ⟨ig, hig, of_decide_eq_true hdec⟩
  · rintro ⟨ig, hig, hinf⟩
    exact ⟨ig, hig, decide_eq_true hinf⟩

theorem ZapSync_spec :
    ZapSync none = none
    ∧ ignorableErrors.length = 6
    ∧ (∀ e : String,
        (ZapSync (some e) = none ↔ ∃ ig ∈ ignorableErrors, ig.toList <:+: e.toList)
        ∧ (ZapSync (some e) ≠ none → ZapSync (some e) = some e)) := by
  refine ⟨rfl, rfl, fun e => ⟨?_, ?_⟩⟩
  · cases hb : isIgnorableSyncError (some e) with
    | true =>
        have hx := (isIgnorable_iff e).mp hb
        constructor
        · intro _
          exact hx
        · intro _
          simp [ZapSync, hb]
    | false =>
        have hx : ¬∃ ig ∈ ignorableErrors, ig.toList <:+: e.toList := by
          intro hex
          have hcontra := (isIgnorable_iff e).mpr hex
          rw [hb] at hcontra
          exact Bool.noConfusion hcontra
        constructor
        · intro h
          exfalso
          simp [ZapSync, hb] at h
        · intro hex
          exact absurd hex hx
  · intro h
    cases hb : isIgnorableSyncError (some e) with
    | true =>
        exact absurd (by simp [ZapSync, hb]) h
    | false =>
        simp [ZapSync, hb]

/-- Witness for C8: a real failure is propagated unchanged, a redirected
stdout sync error is swallowed. -/
theorem ZapSync_spec_witness :
    ZapSync (some "disk quota exceeded") = some "disk quota exceeded"
    ∧ ZapSync (some "sync /dev/stdout: inappropriate ioctl for device") = none := by
  constructor
  · exact ((ZapSync_spec.2.2 "disk quota exceeded").2 (by decide))
  · exact ((ZapSync_spec.2.2 "sync /dev/stdout: inappropriate ioctl for device").1.mpr
      ⟨"sync /dev/stdout: inappropriate ioctl for device", by decide, ⟨[], [], by decide⟩⟩)

/-! ## ForInfra component-logger cache (logger_zap.go 326-361) -/

/-- Identity of a logger instance: the facade's own backend, the
pre-created infrastructure logger, or the instance returned by With on a
parent with the given pre-attached fields. -/
inductive LoggerRef where
  | base
  | infra
  | withFields (parent : LoggerRef) (fields : List Field)
deriving DecidableEq

/-- The per-facade mutable state ForInfra reads and updates: the
pre-created infrastructure logger (absent on the nop/fallback path) and
the componentLoggers cache. -/
structure FacadeState where
  infraLogger : Option LoggerRef
  componentLoggers : List (String × LoggerRef)
deriving DecidableEq

/-- ForInfra: normalize the empty component name to "unknown", return the
cached instance on a hit, otherwise construct the component logger once
(from the infrastructure logger when present, else from the facade
itself), store it in the cache, and return it. -/
def ForInfra (l : FacadeState) (component0 : String) : LoggerRef × FacadeState :=
  let component := if component0 == "" then "unknown" else component0
  match l.componentLoggers.lookup component with
  | some logger => (logger, l)
  | none =>
      match l.infraLogger with
      | some infraL =>
          let componentLogger := LoggerRef.withFields infraL [Field.String "component" component]
          (componentLogger,
            { l with componentLoggers := (component, componentLogger) :: l.componentLoggers })
      | none =>
          let componentLogger := LoggerRef.withFields LoggerRef.base [Field.String "component" component]
          (componentLogger,
            { l with componentLoggers := (component, componentLogger) :: l.componentLoggers })

/-- C9: ForInfra is idempotent per component name — the second call on
the state left by the first returns the very same logger instance the
first call produced and leaves the state untouched, so every later call
with that name behaves identically (the component logger is constructed
at most once per name). -/
theorem ForInfra_idempotent (l : FacadeState) (component : String) :
    ForInfra (ForInfra l component).2 component
      = ((ForInfra l component).1, (ForInfra l component).2) := by
  unfold ForInfra
  generalize (if component == "" then "unknown" else component) = c
  dsimp only
  cases h : l.componentLoggers.lookup c with
  | some logger => rw [h]
  | none =>
      cases hi : l.infraLogger with
      | some infraL => simp [List.lookup]
      | none => simp [List.lookup]

/-! ## NewZapLogger configuration path (logger_zap.go 90-179, config.go) -/

/-- zapcore.Level values. -/
inductive Level where
  | debugLevel
  | infoLevel
  | warnLevel
  | errorLevel
  | dpanicLevel
  | panicLevel
  | fatalLevel
deriving DecidableEq

/-- Config (config.go): LogFormat is a string type, so format is carried
as a String. -/
structure Config where
  level : Level
  format : String
  development : Bool
  disableCaller : Bool
  disableStacktrace : Bool
  timeFormat : String
  callerSkip : Int
deriving DecidableEq

/-- DefaultLoggerConfig (config.go 61-71). -/
def DefaultLoggerConfig : Config :=
  { level := Level.infoLevel
  , format := "json"
  , development := false
  , disableCaller := false
  , disableStacktrace := true
  , timeFormat := ""
  , callerSkip := 1 }

/-- ASCII case folding for one character (the format strings compared by
the source are ASCII). -/
def asciiToLower (c : Char) : Char :=
  if 'A' ≤ c ∧ c ≤ 'Z' then Char.ofNat (c.toNat + 32) else c

/-- LogFormat.Normalize: lowercase the format string. -/
def normalizeFormat (f : String) : String := String.mk (f.toList.map asciiToLower)

/-- determineEncoding: console for the text format, json otherwise. -/
def determineEncoding (format : String) : String :=
  if normalizeFormat format == "text" then "console" else "json"

/-- The deterministic part of a zap.Config the source assembles before
handing it to the external zap Build: level, development flag, encoding,
caller/stacktrace suppression, the optional AddCallerSkip option, and
whether adjustEncoderForConsole rewrote the encoders. -/
structure ZapBuildConfig where
  level : Level
  development : Bool
  encoding : String
  disableCaller : Bool
  disableStacktrace : Bool
  callerSkipOption : Option Int
  consoleEncoder : Bool
deriving DecidableEq

/-- The zap.Config built by NewZapLogger for the main logger. -/
def buildZapConfig (cfg : Config) : ZapBuildConfig :=
  let encoding := determineEncoding cfg.format
  { level := cfg.level
  , development := cfg.development
  , encoding := encoding
  , disableCaller := cfg.disableCaller
  , disableStacktrace := cfg.disableStacktrace
  , callerSkipOption := if cfg.callerSkip > 0 then some cfg.callerSkip else none
  , consoleEncoder := encoding == "console" }

/-- The zap.Config built by initInfrastructureLoggers: same inputs, with
caller info and stacktraces always disabled. -/
def initInfraZapConfig (cfg : Config) : ZapBuildConfig :=
  let encoding := determineEncoding cfg.format
  { level := cfg.level
  , development := cfg.development
  , encoding := encoding
  , disableCaller := true
  , disableStacktrace := true
  , callerSkipOption := if cfg.callerSkip > 0 then some cfg.callerSkip else none
  , consoleEncoder := encoding == "console" }

/-- NewZapLogger's configuration path: a nil cfg is replaced by
DefaultLoggerConfig before anything reads it, then the main and the
pre-created infrastructure configurations are derived from it; the
external zap Build consumes exactly this data. -/
def NewZapLogger (cfg : Option Config) : ZapBuildConfig × ZapBuildConfig :=
  let cfg := match cfg with
    | none => DefaultLoggerConfig
    | some c => c
  (buildZapConfig cfg, initInfraZapConfig cfg)

/-- C10: calling NewZapLogger with a nil configuration never dereferences
the nil — it behaves exactly as NewZapLogger on DefaultLoggerConfig:
INFO level, JSON encoding, caller info enabled, stacktrace disabled,
caller skip 1. -/
theorem NewZapLogger_nil_default :
    NewZapLogger none = NewZapLogger (some DefaultLoggerConfig)
    ∧ (NewZapLogger none).1.level = Level.infoLevel
    ∧ (NewZapLogger none).1.encoding = "json"
    ∧ (NewZapLogger none).1.disableCaller = false
    ∧ (NewZapLogger none).1.disableStacktrace = true
    ∧ (NewZapLogger none).1.callerSkipOption = some 1 := by
  refine ⟨rfl, rfl, ?_, rfl, rfl, rfl⟩
  decide

end XLogger
